import Mathlib

/-!
# MPU6050 driver over the ESP-IDF I2C master (`src/main/main.c`)

A shallow embedding of the three driver operations of `main.c`
(`MPU6050_init`, `get_accel_x`, `get_tem`) and of the command links they build.

* A command link is the list of frame elements in the order the source appends them.
* The bus transport (`i2c_master_cmd_begin`, ESP-IDF, outside the repository) is a
  parameter: from a bus state and a command link it yields the next bus state, the
  `esp_err_t` status and the bytes clocked in for the read elements, in order.
* Local objects that the source leaves uninitialised (`check`, `data`) start with
  arbitrary contents, given as a parameter.
* Bytes are `Nat` reduced `% 256`; `int16_t` is `Int`.
* `double` and `float` values are the rationals they denote, every operation rounded
  to nearest-even into binary64 or binary32.
-/

namespace MPU6050

/-! ## Constants -/

/-- Source `#define MPU_ADDR 0x68` (main.c:11). -/
def MPU_ADDR : Nat := 0x68
/-- Source `#define MPU_CMD_WHO_AM_I 0x75` (main.c:12). -/
def MPU_CMD_WHO_AM_I : Nat := 0x75
/-- Source `#define MPU_CMD_PWR_MGMT_1 0x6B` (main.c:13). -/
def MPU_CMD_PWR_MGMT_1 : Nat := 0x6B
/-- Source `#define MPU_CMD_SMPLRT_DIV 0x19` (main.c:14). -/
def MPU_CMD_SMPLRT_DIV : Nat := 0x19
/-- Source `#define MPU_CMD_CONFIG 0x1A` (main.c:15). -/
def MPU_CMD_CONFIG : Nat := 0x1A
/-- Source `#define MPU_CMD_GYRO_CONFIG 0x1B` (main.c:16). -/
def MPU_CMD_GYRO_CONFIG : Nat := 0x1B
/-- Source `#define MPU_CMD_ACCEL_CONFIG 0x1C` (main.c:17). -/
def MPU_CMD_ACCEL_CONFIG : Nat := 0x1C
/-- Source `#define MPU_CMD_ACCEL_XOUT_H 0x3B` (main.c:18). -/
def MPU_CMD_ACCEL_XOUT_H : Nat := 0x3B

/-- ESP-IDF `i2c_port_t` value `I2C_NUM_0`. -/
def I2C_NUM_0 : Nat := 0
/-- Source `#define I2C_MASTER_NUM I2C_NUM_0` (main.c:6). -/
def I2C_MASTER_NUM : Nat := I2C_NUM_0

/-- ESP-IDF `i2c_rw_t` value `I2C_MASTER_WRITE` (direction bit 0). -/
def I2C_MASTER_WRITE : Nat := 0
/-- ESP-IDF `i2c_rw_t` value `I2C_MASTER_READ` (direction bit 1). -/
def I2C_MASTER_READ : Nat := 1

/-- ESP-IDF `i2c_ack_type_t`: `I2C_MASTER_ACK` acknowledges the byte read,
`I2C_MASTER_NACK` does not acknowledge it, `I2C_MASTER_LAST_NACK` does not acknowledge
the last byte of the read it is attached to. -/
inductive i2c_ack_type_t where
  | I2C_MASTER_ACK
  | I2C_MASTER_NACK
  | I2C_MASTER_LAST_NACK
  deriving DecidableEq

open i2c_ack_type_t

/-- ESP-IDF `esp_err_t` value `ESP_OK`. -/
def ESP_OK : Int := 0
/-- ESP-IDF `esp_err_t` value `ESP_FAIL` (a required acknowledge was missing). -/
def ESP_FAIL : Int := -1
/-- ESP-IDF `esp_err_t` value `ESP_ERR_TIMEOUT`. -/
def ESP_ERR_TIMEOUT : Int := 0x107

/-! ## Command links -/

/-- One frame element of a command link. `write` carries the byte and the `ack_en`
flag of `i2c_master_write_byte`; `read` carries the destination of the byte (the index
of the byte inside the local object whose address the source passes) and the
acknowledge policy of `i2c_master_read_byte`. -/
inductive I2cCmd where
  | start
  | write (byte : Nat) (ack_en : Bool)
  | read (dst : Nat) (ack : i2c_ack_type_t)
  | stop
  deriving DecidableEq

/-- ESP-IDF `i2c_cmd_link_create()`: a fresh, empty command link. -/
def i2c_cmd_link_create : List I2cCmd := []

/-- ESP-IDF `i2c_master_start(cmd)`: appends a start condition. -/
def i2c_master_start (cmd : List I2cCmd) : List I2cCmd :=
  cmd ++ [I2cCmd.start]

/-- ESP-IDF `i2c_master_write_byte(cmd, data, ack_en)`: appends one outgoing byte
(`data` is a `uint8_t`). -/
def i2c_master_write_byte (cmd : List I2cCmd) (data : Nat) (ack_en : Bool) : List I2cCmd :=
  cmd ++ [I2cCmd.write (data % 256) ack_en]

/-- ESP-IDF `i2c_master_read_byte(cmd, &obj[dst], ack)`: appends one incoming byte. -/
def i2c_master_read_byte (cmd : List I2cCmd) (dst : Nat) (ack : i2c_ack_type_t) :
    List I2cCmd :=
  cmd ++ [I2cCmd.read dst ack]

/-- ESP-IDF `i2c_master_stop(cmd)`: appends a stop condition. -/
def i2c_master_stop (cmd : List I2cCmd) : List I2cCmd :=
  cmd ++ [I2cCmd.stop]

/-! ## Transport -/

/-- What one execution of a command link gives back: the next bus state, the status
`i2c_master_cmd_begin` returns, and the bytes clocked in for the read elements of the
link, in order (fewer than the read elements when the exchange broke off). -/
structure Xfer (σ : Type) where
  next : σ
  status : Int
  rx : List Nat

/-- The bus behind `i2c_master_cmd_begin(I2C_MASTER_NUM, cmd, pdMS_TO_TICKS(1000))`. -/
abbrev Transport (σ : Type) := σ → List I2cCmd → Xfer σ

/-- The bytes a transport clocked in are stored through the destinations of the read
elements of the link, in order; a destination no byte arrived for keeps its contents. -/
def deliver : List I2cCmd → List Nat → (Nat → Nat) → (Nat → Nat)
  | [], _, mem => mem
  | I2cCmd.read _ _ :: _, [], mem => mem
  | I2cCmd.read dst _ :: cs, b :: bs, mem =>
      deliver cs bs (fun i => if i = dst then b % 256 else mem i)
  | _ :: cs, bs, mem => deliver cs bs mem

/-- Log lines of the driver: `offline check` is
`ESP_LOGE(TAG, "MPU6050 不在线!( %02X )", check)` (main.c:73), `online` is
`ESP_LOGI(TAG, "MPU6050 检测到在线，开始初始化...")` (main.c:77) and `init_done` is
`ESP_LOGI(TAG, "MPU6050 初始化完毕!")` (main.c:135). -/
inductive LogLine where
  | offline (check : Nat)
  | online
  | init_done
  deriving DecidableEq

/-- What a driver operation does that can be observed from outside: the command links
it hands to `i2c_master_cmd_begin` (with port and timeout in milliseconds) and the lines
it logs. -/
inductive Event where
  | xfer (port : Nat) (link : List I2cCmd) (wait_ms : Nat)
  | log (line : LogLine)
  deriving DecidableEq

/-- Result of a driver operation: bus state afterwards, events in order, return value. -/
structure Outcome (σ : Type) (α : Type) where
  bus : σ
  trace : List Event
  ret : α

/-- The command links executed in a trace, in order. -/
def xfers : List Event → List (List I2cCmd)
  | [] => []
  | Event.xfer _ link _ :: es => link :: xfers es
  | Event.log _ :: es => xfers es

/-! ## Command links built by the driver -/

/-- Identity check link, main.c:60-67; `&check` is destination 0. -/
def link_who_am_i : List I2cCmd :=
  let cmd := i2c_cmd_link_create
  let cmd := i2c_master_start cmd
  let cmd := i2c_master_write_byte cmd ((MPU_ADDR <<< 1) ||| I2C_MASTER_WRITE) true
  let cmd := i2c_master_write_byte cmd MPU_CMD_WHO_AM_I true
  let cmd := i2c_master_start cmd
  let cmd := i2c_master_write_byte cmd ((MPU_ADDR <<< 1) ||| I2C_MASTER_READ) true
  let cmd := i2c_master_read_byte cmd 0 I2C_MASTER_LAST_NACK
  i2c_master_stop cmd

/-- Power management link, main.c:86-91. -/
def link_pwr_mgmt_1 : List I2cCmd :=
  let cmd := i2c_cmd_link_create
  let cmd := i2c_master_start cmd
  let cmd := i2c_master_write_byte cmd ((MPU_ADDR <<< 1) ||| I2C_MASTER_WRITE) true
  let cmd := i2c_master_write_byte cmd MPU_CMD_PWR_MGMT_1 true
  let cmd := i2c_master_write_byte cmd 0x00 true
  i2c_master_stop cmd

/-- Sample rate divider link, main.c:96-101. -/
def link_smplrt_div : List I2cCmd :=
  let cmd := i2c_cmd_link_create
  let cmd := i2c_master_start cmd
  let cmd := i2c_master_write_byte cmd ((MPU_ADDR <<< 1) ||| I2C_MASTER_WRITE) true
  let cmd := i2c_master_write_byte cmd MPU_CMD_SMPLRT_DIV true
  let cmd := i2c_master_write_byte cmd 0x07 true
  i2c_master_stop cmd

/-- Digital low-pass filter link, main.c:106-111. -/
def link_config : List I2cCmd :=
  let cmd := i2c_cmd_link_create
  let cmd := i2c_master_start cmd
  let cmd := i2c_master_write_byte cmd ((MPU_ADDR <<< 1) ||| I2C_MASTER_WRITE) true
  let cmd := i2c_master_write_byte cmd MPU_CMD_CONFIG true
  let cmd := i2c_master_write_byte cmd 0x00 true
  i2c_master_stop cmd

/-- Gyroscope configuration link, main.c:116-121. -/
def link_gyro_config : List I2cCmd :=
  let cmd := i2c_cmd_link_create
  let cmd := i2c_master_start cmd
  let cmd := i2c_master_write_byte cmd ((MPU_ADDR <<< 1) ||| I2C_MASTER_WRITE) true
  let cmd := i2c_master_write_byte cmd MPU_CMD_GYRO_CONFIG true
  let cmd := i2c_master_write_byte cmd 0x00 true
  i2c_master_stop cmd

/-- Accelerometer configuration link, main.c:126-131. -/
def link_accel_config : List I2cCmd :=
  let cmd := i2c_cmd_link_create
  let cmd := i2c_master_start cmd
  let cmd := i2c_master_write_byte cmd ((MPU_ADDR <<< 1) ||| I2C_MASTER_WRITE) true
  let cmd := i2c_master_write_byte cmd MPU_CMD_ACCEL_CONFIG true
  let cmd := i2c_master_write_byte cmd 0x00 true
  i2c_master_stop cmd

/-- Acceleration X link, main.c:150-158; `&data.bytes[1]` is destination 1 and
`&data.bytes[0]` destination 0. -/
def link_accel_x : List I2cCmd :=
  let cmd := i2c_cmd_link_create
  let cmd := i2c_master_start cmd
  let cmd := i2c_master_write_byte cmd ((MPU_ADDR <<< 1) ||| I2C_MASTER_WRITE) true
  let cmd := i2c_master_write_byte cmd MPU_CMD_ACCEL_XOUT_H true
  let cmd := i2c_master_start cmd
  let cmd := i2c_master_write_byte cmd ((MPU_ADDR <<< 1) ||| I2C_MASTER_READ) true
  let cmd := i2c_master_read_byte cmd 1 I2C_MASTER_ACK
  let cmd := i2c_master_read_byte cmd 0 I2C_MASTER_NACK
  i2c_master_stop cmd

/-- Temperature link, main.c:171-179. -/
def link_tem : List I2cCmd :=
  let cmd := i2c_cmd_link_create
  let cmd := i2c_master_start cmd
  let cmd := i2c_master_write_byte cmd ((MPU_ADDR <<< 1) ||| I2C_MASTER_WRITE) true
  let cmd := i2c_master_write_byte cmd 0x41 true
  let cmd := i2c_master_start cmd
  let cmd := i2c_master_write_byte cmd ((MPU_ADDR <<< 1) ||| I2C_MASTER_READ) true
  let cmd := i2c_master_read_byte cmd 1 I2C_MASTER_ACK
  let cmd := i2c_master_read_byte cmd 0 I2C_MASTER_NACK
  i2c_master_stop cmd

/-! ## Driver operations -/

/-- Source `void MPU6050_init()` (main.c:49-136). `mem0 0` is what the uninitialised
`check` (a `uint8_t`) holds before the exchange. The source ignores the value every
`i2c_master_cmd_begin` returns, so `status` is not read; `i2c_cmd_link_delete` only
frees the link and leaves no event. -/
def MPU6050_init {σ : Type} (T : Transport σ) (s : σ) (mem0 : Nat → Nat) :
    Outcome σ Unit :=
  let x0 := T s link_who_am_i
  let check := deliver link_who_am_i x0.rx mem0 0 % 256
  if check ≠ 0x68 then
    ⟨x0.next, [Event.xfer I2C_MASTER_NUM link_who_am_i 1000,
               Event.log (LogLine.offline check)], ()⟩
  else
    let x1 := T x0.next link_pwr_mgmt_1
    let x2 := T x1.next link_smplrt_div
    let x3 := T x2.next link_config
    let x4 := T x3.next link_gyro_config
    let x5 := T x4.next link_accel_config
    ⟨x5.next, [Event.xfer I2C_MASTER_NUM link_who_am_i 1000,
               Event.log LogLine.online,
               Event.xfer I2C_MASTER_NUM link_pwr_mgmt_1 1000,
               Event.xfer I2C_MASTER_NUM link_smplrt_div 1000,
               Event.xfer I2C_MASTER_NUM link_config 1000,
               Event.xfer I2C_MASTER_NUM link_gyro_config 1000,
               Event.xfer I2C_MASTER_NUM link_accel_config 1000,
               Event.log LogLine.init_done], ()⟩

/-- Reading the member `value` of `union { uint8_t bytes[4]; int16_t value; }` on the
little-endian target: `bytes[0]` is the low byte and `bytes[1]` the high byte of the
two's-complement `int16_t`. -/
def union_value (bytes : Nat → Nat) : Int :=
  let u := bytes 0 % 256 + 256 * (bytes 1 % 256)
  if u < 32768 then (u : Int) else (u : Int) - 65536

/-- Source `int16_t get_accel_x()` (main.c:142-162). `mem0` is what the uninitialised
`data` holds before the exchange. -/
def get_accel_x {σ : Type} (T : Transport σ) (s : σ) (mem0 : Nat → Nat) :
    Outcome σ Int :=
  let x := T s link_accel_x
  let data := deliver link_accel_x x.rx mem0
  ⟨x.next, [Event.xfer I2C_MASTER_NUM link_accel_x 1000], union_value data⟩

/-- The integer part of `float get_tem()` (main.c:163-181): the bus exchange and the
read-back of `data.value`, the operand of the transform of main.c:182. -/
def get_tem_data {σ : Type} (T : Transport σ) (s : σ) (mem0 : Nat → Nat) :
    Outcome σ Int :=
  let x := T s link_tem
  let data := deliver link_tem x.rx mem0
  ⟨x.next, [Event.xfer I2C_MASTER_NUM link_tem 1000], union_value data⟩

/-- Source `float get_tem()` (main.c:163-184). The evaluation
`(float)((double)data.value/340+36.53)` of main.c:182-183 is the parameter `fp`; on the
target it is `tem_float`. -/
def get_tem {σ F : Type} (fp : Int → F) (T : Transport σ) (s : σ) (mem0 : Nat → Nat) :
    Outcome σ F :=
  let o := get_tem_data T s mem0
  ⟨o.bus, o.trace, fp o.ret⟩

/-! ## Floating point of the target

`double` is IEEE-754 binary64 and `float` binary32, every operation rounded to nearest,
ties to even. A finite floating-point number is the rational it denotes. -/

/-- Exponent of the leading bit of a nonzero rational: the `e` with
`2^e ≤ |x| < 2^(e+1)`, found from the bit lengths of numerator and denominator. -/
def floor_log2 (x : ℚ) : Int :=
  let k : Int := (Nat.log2 x.num.natAbs : Int) - (Nat.log2 x.den : Int)
  if (2 : ℚ) ^ k ≤ |x| then k else k - 1

/-- Rounding to the nearest integer, a tie going to the even one. -/
def rne (x : ℚ) : Int :=
  let f := ⌊x⌋
  if x - f < 1 / 2 then f
  else if 1 / 2 < x - f then f + 1
  else if f % 2 = 0 then f else f + 1

/-- IEEE-754 round-to-nearest-even into the binary format with `p` significand bits
whose least subnormal bit has exponent `emin`. Overflow to infinity is left out: every
value of main.c:182-183 is below `2^8` in magnitude (`tem_double_err`). -/
def fp_round (p : Nat) (emin : Int) (x : ℚ) : ℚ :=
  if x = 0 then 0
  else
    let e := max (floor_log2 x - ((p : Int) - 1)) emin
    (rne (x / (2 : ℚ) ^ e) : ℚ) * (2 : ℚ) ^ e

/-- Rounding to `double` (binary64: 53 significand bits, least bit `2^-1074`). -/
def f64 (x : ℚ) : ℚ := fp_round 53 (-1074) x

/-- Rounding to `float` (binary32: 24 significand bits, least bit `2^-149`). -/
def f32 (x : ℚ) : ℚ := fp_round 24 (-149) x

/-- Source `tem=(double)data.value/340+36.53;` (main.c:182): the `int16_t` and the
`int` 340 are converted to `double`, the literal `36.53` is a `double`, and the
division and the addition are `double` operations. -/
def tem_double (value : Int) : ℚ :=
  f64 (f64 (f64 (value : ℚ) / f64 340) + f64 (3653 / 100))

/-- Source `return (float)tem;` (main.c:183). -/
def tem_float (value : Int) : ℚ := f32 (tem_double value)

/-! ## Vocabulary of the properties -/

/-- A single-register write transaction: start, device address with the write bit
(`0xD0`) with acknowledge required, register with acknowledge required, one value byte
with acknowledge required, stop. -/
def is_reg_write : List I2cCmd → Bool
  | [I2cCmd.start, I2cCmd.write a true, I2cCmd.write _ true, I2cCmd.write _ true,
     I2cCmd.stop] => a == 0xD0
  | _ => false

/-- A transport that answers every exchange with `ESP_OK` and the given bytes. -/
def bus_answer (bytes : List Nat) : Transport Unit :=
  fun _ _ => ⟨(), ESP_OK, bytes⟩

/-- Following the claim's words: the signed 16-bit two's-complement value of
`hi*256 + lo`. -/
def int16_of_be (hi lo : Nat) : Int :=
  if hi * 256 + lo < 32768 then ((hi * 256 + lo : Nat) : Int)
  else ((hi * 256 + lo : Nat) : Int) - 65536

/-- Following the claim's words: high byte of the 16-bit two's-complement encoding
of `v`. -/
def be16_hi (v : Int) : Nat := (v % 65536).toNat / 256

/-- Following the claim's words: low byte of the 16-bit two's-complement encoding
of `v`. -/
def be16_lo (v : Int) : Nat := (v % 65536).toNat % 256

/-- Whether a one-byte read element with this policy leaves its byte unacknowledged
on the wire: `I2C_MASTER_NACK` does, and so does `I2C_MASTER_LAST_NACK`, the byte being
the last of its read. -/
def sends_nack : i2c_ack_type_t → Bool
  | I2C_MASTER_ACK => false
  | I2C_MASTER_NACK => true
  | I2C_MASTER_LAST_NACK => true

/-- The read bursts of a link: the acknowledge policies of each maximal run of
consecutive read elements; `cur` is the run being collected. -/
def read_bursts_from : List I2cCmd → List i2c_ack_type_t → List (List i2c_ack_type_t)
  | [], cur => if cur = [] then [] else [cur]
  | I2cCmd.read _ a :: cs, cur => read_bursts_from cs (cur ++ [a])
  | _ :: cs, cur => (if cur = [] then [] else [cur]) ++ read_bursts_from cs []

/-- The read bursts of a link. -/
def read_bursts (link : List I2cCmd) : List (List i2c_ack_type_t) :=
  read_bursts_from link []

/-- Every command link that one run of each driver operation hands to the bus. -/
def driver_links {σ : Type} (T : Transport σ) (s : σ) (mem0 : Nat → Nat) :
    List (List I2cCmd) :=
  xfers (MPU6050_init T s mem0).trace ++ xfers (get_accel_x T s mem0).trace ++
    xfers (get_tem_data T s mem0).trace

/-- The eight command links the source builds. -/
def all_links : List (List I2cCmd) :=
  [link_who_am_i, link_pwr_mgmt_1, link_smplrt_div, link_config, link_gyro_config,
   link_accel_config, link_accel_x, link_tem]

/-- A transport on which every exchange times out and no byte arrives. -/
def bus_timeout : Transport Unit :=
  fun _ _ => ⟨(), ESP_ERR_TIMEOUT, []⟩

/-- A transport on which a required acknowledge is missing and no byte arrives. -/
def bus_nack : Transport Unit :=
  fun _ _ => ⟨(), ESP_FAIL, []⟩

/-- The transport `T` with the status of every exchange replaced by `g`. -/
def relabel {σ : Type} (g : σ → List I2cCmd → Int) (T : Transport σ) : Transport σ :=
  fun s link => ⟨(T s link).next, g s link, (T s link).rx⟩

/-! ## Shape of the links -/

theorem link_who_am_i_eq : link_who_am_i =
    [I2cCmd.start, I2cCmd.write 0xD0 true, I2cCmd.write 0x75 true, I2cCmd.start,
     I2cCmd.write 0xD1 true, I2cCmd.read 0 I2C_MASTER_LAST_NACK, I2cCmd.stop] := by
  decide

theorem link_pwr_mgmt_1_eq : link_pwr_mgmt_1 =
    [I2cCmd.start, I2cCmd.write 0xD0 true, I2cCmd.write 0x6B true, I2cCmd.write 0x00 true,
     I2cCmd.stop] := by
  decide

theorem link_smplrt_div_eq : link_smplrt_div =
    [I2cCmd.start, I2cCmd.write 0xD0 true, I2cCmd.write 0x19 true, I2cCmd.write 0x07 true,
     I2cCmd.stop] := by
  decide

theorem link_config_eq : link_config =
    [I2cCmd.start, I2cCmd.write 0xD0 true, I2cCmd.write 0x1A true, I2cCmd.write 0x00 true,
     I2cCmd.stop] := by
  decide

theorem link_gyro_config_eq : link_gyro_config =
    [I2cCmd.start, I2cCmd.write 0xD0 true, I2cCmd.write 0x1B true, I2cCmd.write 0x00 true,
     I2cCmd.stop] := by
  decide

theorem link_accel_config_eq : link_accel_config =
    [I2cCmd.start, I2cCmd.write 0xD0 true, I2cCmd.write 0x1C true, I2cCmd.write 0x00 true,
     I2cCmd.stop] := by
  decide

theorem link_accel_x_eq : link_accel_x =
    [I2cCmd.start, I2cCmd.write 0xD0 true, I2cCmd.write 0x3B true, I2cCmd.start,
     I2cCmd.write 0xD1 true, I2cCmd.read 1 I2C_MASTER_ACK, I2cCmd.read 0 I2C_MASTER_NACK,
     I2cCmd.stop] := by
  decide

theorem link_tem_eq : link_tem =
    [I2cCmd.start, I2cCmd.write 0xD0 true, I2cCmd.write 0x41 true, I2cCmd.start,
     I2cCmd.write 0xD1 true, I2cCmd.read 1 I2C_MASTER_ACK, I2cCmd.read 0 I2C_MASTER_NACK,
     I2cCmd.stop] := by
  decide

/-! ## Delivery of the bytes read -/

theorem deliver_who_am_i (b : Nat) (mem0 : Nat → Nat) :
    deliver link_who_am_i [b] mem0 0 = b % 256 := by
  simp [link_who_am_i_eq, deliver]

theorem deliver_accel_x (hi lo : Nat) (mem0 : Nat → Nat) :
    deliver link_accel_x [hi, lo] mem0 0 = lo % 256 ∧
    deliver link_accel_x [hi, lo] mem0 1 = hi % 256 := by
  simp [link_accel_x_eq, deliver]

theorem deliver_tem (hi lo : Nat) (mem0 : Nat → Nat) :
    deliver link_tem [hi, lo] mem0 0 = lo % 256 ∧
    deliver link_tem [hi, lo] mem0 1 = hi % 256 := by
  simp [link_tem_eq, deliver]

/-- The trace of `MPU6050_init` when `check` is not `0x68` after the exchange. -/
theorem init_trace_mismatch {σ : Type} (T : Transport σ) (s : σ) (mem0 : Nat → Nat)
    (h : deliver link_who_am_i (T s link_who_am_i).rx mem0 0 % 256 ≠ 0x68) :
    (MPU6050_init T s mem0).trace =
      [Event.xfer I2C_MASTER_NUM link_who_am_i 1000,
       Event.log
         (LogLine.offline (deliver link_who_am_i (T s link_who_am_i).rx mem0 0 % 256))] := by
  simp [MPU6050_init, h]

/-- The trace of `MPU6050_init` when `check` is `0x68` after the exchange. -/
theorem init_trace_match {σ : Type} (T : Transport σ) (s : σ) (mem0 : Nat → Nat)
    (h : deliver link_who_am_i (T s link_who_am_i).rx mem0 0 % 256 = 0x68) :
    (MPU6050_init T s mem0).trace =
      [Event.xfer I2C_MASTER_NUM link_who_am_i 1000,
       Event.log LogLine.online,
       Event.xfer I2C_MASTER_NUM link_pwr_mgmt_1 1000,
       Event.xfer I2C_MASTER_NUM link_smplrt_div 1000,
       Event.xfer I2C_MASTER_NUM link_config 1000,
       Event.xfer I2C_MASTER_NUM link_gyro_config 1000,
       Event.xfer I2C_MASTER_NUM link_accel_config 1000,
       Event.log LogLine.init_done] := by
  simp [MPU6050_init, h]

/-! ## Identity check and configuration (C1, C5, C10) -/

/-- Claim C1: for every identity byte `b` the WHO_AM_I read returns, `MPU6050_init`
issues register-write transactions if and only if `b = 0x68`; for every other `b` it
logs the device as not online and returns after exactly the identity transaction, with
no configuration write. -/
theorem C1_identity_gates_configuration {σ : Type} (T : Transport σ) (s : σ)
    (mem0 : Nat → Nat) (b : Nat) (hb : b < 256) (hrx : (T s link_who_am_i).rx = [b]) :
    ((∃ t ∈ xfers (MPU6050_init T s mem0).trace, is_reg_write t = true) ↔ b = 0x68) ∧
    (b ≠ 0x68 →
      (MPU6050_init T s mem0).trace =
        [Event.xfer I2C_MASTER_NUM link_who_am_i 1000, Event.log (LogLine.offline b)] ∧
      xfers (MPU6050_init T s mem0).trace = [link_who_am_i]) := by
  have hchk : deliver link_who_am_i (T s link_who_am_i).rx mem0 0 % 256 = b := by
    rw [hrx, deliver_who_am_i, Nat.mod_mod, Nat.mod_eq_of_lt hb]
  by_cases h68 : b = 0x68
  · have hm : deliver link_who_am_i (T s link_who_am_i).rx mem0 0 % 256 = 0x68 := by
      rw [hchk, h68]
    refine ⟨⟨fun _ => h68, fun _ => ⟨link_pwr_mgmt_1, ?_, by decide⟩⟩,
      fun h => absurd h68 h⟩
    rw [init_trace_match T s mem0 hm]
    simp [xfers]
  · have hm : deliver link_who_am_i (T s link_who_am_i).rx mem0 0 % 256 ≠ 0x68 := by
      rw [hchk]; exact h68
    have htr := init_trace_mismatch T s mem0 hm
    rw [hchk] at htr
    refine ⟨⟨fun ⟨t, ht, hw⟩ => ?_, fun h => absurd h h68⟩, fun _ => ⟨htr, ?_⟩⟩
    · rw [htr] at ht
      simp only [xfers, List.mem_singleton] at ht
      subst ht
      exact absurd hw (by decide)
    · rw [htr]; rfl

/-- Witness of C1 at a device answering `0x00`: one transaction, then the error log. -/
theorem C1_identity_gates_configuration_witness :
    (0x00 < 256 ∧ (bus_answer [0x00] () link_who_am_i).rx = [0x00]) ∧
    (MPU6050_init (bus_answer [0x00]) () (fun _ => 0)).trace =
      [Event.xfer I2C_MASTER_NUM link_who_am_i 1000, Event.log (LogLine.offline 0x00)] ∧
    xfers (MPU6050_init (bus_answer [0x00]) () (fun _ => 0)).trace = [link_who_am_i] :=
  ⟨⟨by decide, rfl⟩,
   (C1_identity_gates_configuration (bus_answer [0x00]) () (fun _ => 0) 0x00
      (by decide) rfl).2 (by decide)⟩

/-- Claim C5: after a successful identity check the configuration writes of
`MPU6050_init` are, in order, `(0x6B, 0x00)`, `(0x19, 0x07)`, `(0x1A, 0x00)`,
`(0x1B, 0x00)`, `(0x1C, 0x00)`, each framed as start, write `0xD0` (address `0x68`
shifted left by one, write bit) with ack required, write register with ack required,
write value with ack required, stop; the power-management write comes first. -/
theorem C5_configuration_writes_in_order {σ : Type} (T : Transport σ) (s : σ)
    (mem0 : Nat → Nat) (hrx : (T s link_who_am_i).rx = [0x68]) :
    xfers (MPU6050_init T s mem0).trace =
      [link_who_am_i,
       [I2cCmd.start, I2cCmd.write 0xD0 true, I2cCmd.write 0x6B true,
        I2cCmd.write 0x00 true, I2cCmd.stop],
       [I2cCmd.start, I2cCmd.write 0xD0 true, I2cCmd.write 0x19 true,
        I2cCmd.write 0x07 true, I2cCmd.stop],
       [I2cCmd.start, I2cCmd.write 0xD0 true, I2cCmd.write 0x1A true,
        I2cCmd.write 0x00 true, I2cCmd.stop],
       [I2cCmd.start, I2cCmd.write 0xD0 true, I2cCmd.write 0x1B true,
        I2cCmd.write 0x00 true, I2cCmd.stop],
       [I2cCmd.start, I2cCmd.write 0xD0 true, I2cCmd.write 0x1C true,
        I2cCmd.write 0x00 true, I2cCmd.stop]] ∧
    (MPU_ADDR <<< 1) ||| I2C_MASTER_WRITE = 0xD0 ∧
    (MPU_CMD_PWR_MGMT_1 = 0x6B ∧ MPU_CMD_SMPLRT_DIV = 0x19 ∧ MPU_CMD_CONFIG = 0x1A ∧
      MPU_CMD_GYRO_CONFIG = 0x1B ∧ MPU_CMD_ACCEL_CONFIG = 0x1C) := by
  have hm : deliver link_who_am_i (T s link_who_am_i).rx mem0 0 % 256 = 0x68 := by
    rw [hrx, deliver_who_am_i]
  refine ⟨?_, by decide, by decide⟩
  rw [init_trace_match T s mem0 hm]
  simp only [xfers]
  rw [link_pwr_mgmt_1_eq, link_smplrt_div_eq, link_config_eq, link_gyro_config_eq,
    link_accel_config_eq]

/-- Witness of C5 at a device answering `0x68`. -/
theorem C5_configuration_writes_in_order_witness :
    (bus_answer [0x68] () link_who_am_i).rx = [0x68] ∧
    (xfers (MPU6050_init (bus_answer [0x68]) () (fun _ => 0)).trace).tail =
      [[I2cCmd.start, I2cCmd.write 0xD0 true, I2cCmd.write 0x6B true,
        I2cCmd.write 0x00 true, I2cCmd.stop],
       [I2cCmd.start, I2cCmd.write 0xD0 true, I2cCmd.write 0x19 true,
        I2cCmd.write 0x07 true, I2cCmd.stop],
       [I2cCmd.start, I2cCmd.write 0xD0 true, I2cCmd.write 0x1A true,
        I2cCmd.write 0x00 true, I2cCmd.stop],
       [I2cCmd.start, I2cCmd.write 0xD0 true, I2cCmd.write 0x1B true,
        I2cCmd.write 0x00 true, I2cCmd.stop],
       [I2cCmd.start, I2cCmd.write 0xD0 true, I2cCmd.write 0x1C true,
        I2cCmd.write 0x00 true, I2cCmd.stop]] := by
  refine ⟨rfl, ?_⟩
  rw [(C5_configuration_writes_in_order (bus_answer [0x68]) () (fun _ => 0) rfl).1]
  rfl

/-- Counterexample to claim C10 as stated: at a device answering `0x68` the
configuration step executes five register-write transactions, not four. -/
theorem C10_four_writes_counterexample :
    (bus_answer [0x68] () link_who_am_i).rx = [0x68] ∧
    ((xfers (MPU6050_init (bus_answer [0x68]) () (fun _ => 0)).trace).filter
        is_reg_write).length = 5 ∧
    ¬ ((xfers (MPU6050_init (bus_answer [0x68]) () (fun _ => 0)).trace).filter
        is_reg_write).length = 4 := by
  decide

/-- Claim C10, amended: after a successful identity check the configuration step of
`MPU6050_init` executes exactly five independent single-byte-write transactions
(power management, sample-rate divider, low-pass filter, gyro and accel
configuration), each one its own command link: start, device address, register, one
configuration byte, stop. -/
theorem C10_five_single_byte_writes {σ : Type} (T : Transport σ) (s : σ)
    (mem0 : Nat → Nat) (hrx : (T s link_who_am_i).rx = [0x68]) :
    (xfers (MPU6050_init T s mem0).trace).head? = some link_who_am_i ∧
    (xfers (MPU6050_init T s mem0).trace).tail.length = 5 ∧
    (∀ t ∈ (xfers (MPU6050_init T s mem0).trace).tail, is_reg_write t = true) ∧
    ((xfers (MPU6050_init T s mem0).trace).filter is_reg_write).length = 5 := by
  have hm : deliver link_who_am_i (T s link_who_am_i).rx mem0 0 % 256 = 0x68 := by
    rw [hrx, deliver_who_am_i]
  rw [init_trace_match T s mem0 hm]
  decide

/-- Witness of the amended C10 at a device answering `0x68`. -/
theorem C10_five_single_byte_writes_witness :
    (bus_answer [0x68] () link_who_am_i).rx = [0x68] ∧
    (xfers (MPU6050_init (bus_answer [0x68]) () (fun _ => 0)).trace).tail.length = 5 :=
  ⟨rfl, (C10_five_single_byte_writes (bus_answer [0x68]) () (fun _ => 0) rfl).2.1⟩

/-! ## Decoding of the two data bytes (C2, C4) -/

/-- The union read-back after both bytes arrived: first byte read is the high byte. -/
theorem union_value_of_bytes (data : Nat → Nat) (hi lo : Nat) (hhi : hi < 256)
    (hlo : lo < 256) (h0 : data 0 = lo) (h1 : data 1 = hi) :
    union_value data =
      if hi * 256 + lo < 32768 then ((hi * 256 + lo : Nat) : Int)
      else ((hi * 256 + lo : Nat) : Int) - 65536 := by
  unfold union_value
  rw [h0, h1, Nat.mod_eq_of_lt hhi, Nat.mod_eq_of_lt hlo]
  have e : lo + 256 * hi = hi * 256 + lo := by omega
  simp only [e]

/-- Claim C2: for every pair of bytes `(hi, lo)` read from the accel-X register pair,
`hi` first, `get_accel_x` stores `hi` in `bytes[1]` and `lo` in `bytes[0]` and returns
the signed 16-bit two's-complement value of `hi*256 + lo`; `(0x7F,0xFF)` gives `32767`
and `(0x80,0x00)` gives `-32768`. -/
theorem C2_accel_x_big_endian_int16 {σ : Type} (T : Transport σ) (s : σ)
    (mem0 : Nat → Nat) (hi lo : Nat) (hhi : hi < 256) (hlo : lo < 256)
    (hrx : (T s link_accel_x).rx = [hi, lo]) :
    (deliver link_accel_x (T s link_accel_x).rx mem0 1 = hi ∧
      deliver link_accel_x (T s link_accel_x).rx mem0 0 = lo) ∧
    (get_accel_x T s mem0).ret =
      (if hi * 256 + lo < 32768 then ((hi * 256 + lo : Nat) : Int)
       else ((hi * 256 + lo : Nat) : Int) - 65536) ∧
    (hi = 0x7F → lo = 0xFF → (get_accel_x T s mem0).ret = 32767) ∧
    (hi = 0x80 → lo = 0x00 → (get_accel_x T s mem0).ret = -32768) := by
  have h0 : deliver link_accel_x (T s link_accel_x).rx mem0 0 = lo := by
    rw [hrx, (deliver_accel_x hi lo mem0).1, Nat.mod_eq_of_lt hlo]
  have h1 : deliver link_accel_x (T s link_accel_x).rx mem0 1 = hi := by
    rw [hrx, (deliver_accel_x hi lo mem0).2, Nat.mod_eq_of_lt hhi]
  have hret : (get_accel_x T s mem0).ret =
      (if hi * 256 + lo < 32768 then ((hi * 256 + lo : Nat) : Int)
       else ((hi * 256 + lo : Nat) : Int) - 65536) :=
    union_value_of_bytes _ hi lo hhi hlo h0 h1
  refine ⟨⟨h1, h0⟩, hret, ?_, ?_⟩
  · intro e1 e2
    rw [hret, e1, e2]
    decide
  · intro e1 e2
    rw [hret, e1, e2]
    decide

/-- Witness of C2 at the bytes `(0x80, 0x00)`. -/
theorem C2_accel_x_big_endian_int16_witness :
    (0x80 < 256 ∧ 0x00 < 256 ∧ (bus_answer [0x80, 0x00] () link_accel_x).rx = [0x80, 0x00]) ∧
    (get_accel_x (bus_answer [0x80, 0x00]) () (fun _ => 0)).ret = -32768 :=
  ⟨⟨by decide, by decide, rfl⟩,
   (C2_accel_x_big_endian_int16 (bus_answer [0x80, 0x00]) () (fun _ => 0) 0x80 0x00
      (by decide) (by decide) rfl).2.2.2 rfl rfl⟩

/-- The encoding bytes of an `int16_t` value are bytes and recombine to it. -/
theorem be16_bytes (v : Int) (hlow : -32768 ≤ v) (hhigh : v ≤ 32767) :
    be16_hi v < 256 ∧ be16_lo v < 256 ∧
    (if be16_hi v * 256 + be16_lo v < 32768 then ((be16_hi v * 256 + be16_lo v : Nat) : Int)
     else ((be16_hi v * 256 + be16_lo v : Nat) : Int) - 65536) = v := by
  unfold be16_hi be16_lo
  have hnn : 0 ≤ v % 65536 := Int.emod_nonneg v (by decide)
  have hlt : v % 65536 < 65536 := Int.emod_lt_of_pos v (by decide)
  obtain ⟨n, hn⟩ := Int.eq_ofNat_of_zero_le hnn
  rw [hn, Int.toNat_ofNat]
  have hn65 : n < 65536 := by omega
  have hsum : n / 256 * 256 + n % 256 = n := by omega
  refine ⟨by omega, by omega, ?_⟩
  rw [hsum]
  split_ifs with h <;> omega

/-- Claim C4: round trip over the full `int16_t` range. For every `v` with
`-32768 ≤ v ≤ 32767`, when the bus answers with the big-endian bytes of `v` (high
byte first), `get_accel_x` returns `v` and `get_tem` reads back `data.value = v`. -/
theorem C4_int16_round_trip {σ : Type} (T : Transport σ) (s : σ) (mem0 : Nat → Nat)
    (v : Int) (hlow : -32768 ≤ v) (hhigh : v ≤ 32767)
    (hax : (T s link_accel_x).rx = [be16_hi v, be16_lo v])
    (htem : (T s link_tem).rx = [be16_hi v, be16_lo v]) :
    (get_accel_x T s mem0).ret = v ∧ (get_tem_data T s mem0).ret = v := by
  obtain ⟨hh, hl, hv⟩ := be16_bytes v hlow hhigh
  constructor
  · have h0 : deliver link_accel_x (T s link_accel_x).rx mem0 0 = be16_lo v := by
      rw [hax, (deliver_accel_x _ _ mem0).1, Nat.mod_eq_of_lt hl]
    have h1 : deliver link_accel_x (T s link_accel_x).rx mem0 1 = be16_hi v := by
      rw [hax, (deliver_accel_x _ _ mem0).2, Nat.mod_eq_of_lt hh]
    exact (union_value_of_bytes _ _ _ hh hl h0 h1).trans hv
  · have h0 : deliver link_tem (T s link_tem).rx mem0 0 = be16_lo v := by
      rw [htem, (deliver_tem _ _ mem0).1, Nat.mod_eq_of_lt hl]
    have h1 : deliver link_tem (T s link_tem).rx mem0 1 = be16_hi v := by
      rw [htem, (deliver_tem _ _ mem0).2, Nat.mod_eq_of_lt hh]
    exact (union_value_of_bytes _ _ _ hh hl h0 h1).trans hv

/-- Witness of C4 at `v = -2`, encoded as `(0xFF, 0xFE)`. -/
theorem C4_int16_round_trip_witness :
    ((-32768 : Int) ≤ -2 ∧ (-2 : Int) ≤ 32767 ∧
      (bus_answer [0xFF, 0xFE] () link_accel_x).rx = [be16_hi (-2), be16_lo (-2)] ∧
      (bus_answer [0xFF, 0xFE] () link_tem).rx = [be16_hi (-2), be16_lo (-2)]) ∧
    (get_accel_x (bus_answer [0xFF, 0xFE]) () (fun _ => 0)).ret = -2 ∧
    (get_tem_data (bus_answer [0xFF, 0xFE]) () (fun _ => 0)).ret = -2 :=
  ⟨⟨by decide, by decide, by decide, by decide⟩,
   C4_int16_round_trip (bus_answer [0xFF, 0xFE]) () (fun _ => 0) (-2)
     (by decide) (by decide) (by decide) (by decide)⟩

/-- The value `get_tem` returns is the platform transform `fp` applied to the signed
16-bit value of the two bytes read, high byte first. -/
theorem get_tem_of_bytes {σ F : Type} (fp : Int → F) (T : Transport σ) (s : σ)
    (mem0 : Nat → Nat) (hi lo : Nat) (hhi : hi < 256) (hlo : lo < 256)
    (hrx : (T s link_tem).rx = [hi, lo]) :
    (get_tem fp T s mem0).ret =
      fp (if hi * 256 + lo < 32768 then ((hi * 256 + lo : Nat) : Int)
          else ((hi * 256 + lo : Nat) : Int) - 65536) := by
  have h0 : deliver link_tem (T s link_tem).rx mem0 0 = lo := by
    rw [hrx, (deliver_tem hi lo mem0).1, Nat.mod_eq_of_lt hlo]
  have h1 : deliver link_tem (T s link_tem).rx mem0 1 = hi := by
    rw [hrx, (deliver_tem hi lo mem0).2, Nat.mod_eq_of_lt hhi]
  exact congrArg fp (union_value_of_bytes _ hi lo hhi hlo h0 h1)

/-! ## Framing of the transactions (C6, C7, C8) -/

/-- Every link a run of the driver hands to the bus is one of the eight links. -/
theorem driver_links_sub {σ : Type} (T : Transport σ) (s : σ) (mem0 : Nat → Nat)
    (t : List I2cCmd) (ht : t ∈ driver_links T s mem0) : t ∈ all_links := by
  unfold driver_links at ht
  by_cases h : deliver link_who_am_i (T s link_who_am_i).rx mem0 0 % 256 = 0x68
  · rw [init_trace_match T s mem0 h] at ht
    simp only [get_accel_x, get_tem_data, xfers, List.cons_append, List.nil_append,
      List.mem_cons, List.mem_singleton] at ht
    simp only [all_links, List.mem_cons, List.mem_singleton]
    tauto
  · rw [init_trace_mismatch T s mem0 h] at ht
    simp only [get_accel_x, get_tem_data, xfers, List.cons_append, List.nil_append,
      List.mem_cons, List.mem_singleton] at ht
    simp only [all_links, List.mem_cons, List.mem_singleton]
    tauto

/-- Claim C6: every command link built by a driver operation (identity check and
configuration writes of `MPU6050_init`, `get_accel_x`, `get_tem`) begins with a start
condition and ends with a stop condition. -/
theorem C6_links_start_and_stop {σ : Type} (T : Transport σ) (s : σ) (mem0 : Nat → Nat)
    (t : List I2cCmd) (ht : t ∈ driver_links T s mem0) :
    t.head? = some I2cCmd.start ∧ t.getLast? = some I2cCmd.stop := by
  have key : ∀ l ∈ all_links,
      l.head? = some I2cCmd.start ∧ l.getLast? = some I2cCmd.stop := by decide
  exact key t (driver_links_sub T s mem0 t ht)

/-- Witness of C6 at the temperature link of a run against a device answering `0x68`. -/
theorem C6_links_start_and_stop_witness :
    link_tem ∈ driver_links (bus_answer [0x68]) () (fun _ => 0) ∧
    link_tem.head? = some I2cCmd.start ∧ link_tem.getLast? = some I2cCmd.stop :=
  ⟨by decide,
   C6_links_start_and_stop (bus_answer [0x68]) () (fun _ => 0) link_tem (by decide)⟩

/-- Claim C7: in every read burst the driver issues, a burst of `N` bytes requests
ACK on the first `N-1` reads and no acknowledge on exactly the last; the identity read
is the one-byte burst `[I2C_MASTER_LAST_NACK]` and the reads of `get_accel_x` and
`get_tem` are `[I2C_MASTER_ACK, I2C_MASTER_NACK]` (high byte, low byte). -/
theorem C7_read_bursts_ack_then_nack {σ : Type} (T : Transport σ) (s : σ)
    (mem0 : Nat → Nat) (t : List I2cCmd) (ht : t ∈ driver_links T s mem0)
    (b : List i2c_ack_type_t) (hb : b ∈ read_bursts t) :
    (b.dropLast = List.replicate (b.length - 1) I2C_MASTER_ACK ∧
      b.getLast?.map sends_nack = some true) ∧
    read_bursts link_who_am_i = [[I2C_MASTER_LAST_NACK]] ∧
    read_bursts link_accel_x = [[I2C_MASTER_ACK, I2C_MASTER_NACK]] ∧
    read_bursts link_tem = [[I2C_MASTER_ACK, I2C_MASTER_NACK]] := by
  have key : ∀ l ∈ all_links, ∀ c ∈ read_bursts l,
      c.dropLast = List.replicate (c.length - 1) I2C_MASTER_ACK ∧
      c.getLast?.map sends_nack = some true := by decide
  exact ⟨key t (driver_links_sub T s mem0 t ht) b hb, by decide, by decide, by decide⟩

/-- Witness of C7 at the read burst of `get_accel_x`. -/
theorem C7_read_bursts_ack_then_nack_witness :
    (link_accel_x ∈ driver_links (bus_answer [0x68]) () (fun _ => 0) ∧
      [I2C_MASTER_ACK, I2C_MASTER_NACK] ∈ read_bursts link_accel_x) ∧
    [I2C_MASTER_ACK, I2C_MASTER_NACK].dropLast =
      List.replicate ([I2C_MASTER_ACK, I2C_MASTER_NACK].length - 1) I2C_MASTER_ACK ∧
    [I2C_MASTER_ACK, I2C_MASTER_NACK].getLast?.map sends_nack = some true :=
  ⟨⟨by decide, by decide⟩,
   (C7_read_bursts_ack_then_nack (bus_answer [0x68]) () (fun _ => 0) link_accel_x
      (by decide) [I2C_MASTER_ACK, I2C_MASTER_NACK] (by decide)).1⟩

/-- Claim C8: the identity check, `get_accel_x` and `get_tem` each execute one link of
the shape start, write `0xD0`, write the register address (`0x75`, `0x3B`, `0x41`),
repeated start, write `0xD1`, the byte reads, stop, with no stop before the end; the
`get_tem` link is the `get_accel_x` link with the register address replaced. -/
theorem C8_write_then_read_shape {σ : Type} (T : Transport σ) (s : σ)
    (mem0 : Nat → Nat) :
    (xfers (MPU6050_init T s mem0).trace).head? =
      some [I2cCmd.start, I2cCmd.write 0xD0 true, I2cCmd.write 0x75 true, I2cCmd.start,
        I2cCmd.write 0xD1 true, I2cCmd.read 0 I2C_MASTER_LAST_NACK, I2cCmd.stop] ∧
    xfers (get_accel_x T s mem0).trace =
      [[I2cCmd.start, I2cCmd.write 0xD0 true, I2cCmd.write 0x3B true, I2cCmd.start,
        I2cCmd.write 0xD1 true, I2cCmd.read 1 I2C_MASTER_ACK,
        I2cCmd.read 0 I2C_MASTER_NACK, I2cCmd.stop]] ∧
    xfers (get_tem_data T s mem0).trace =
      [[I2cCmd.start, I2cCmd.write 0xD0 true, I2cCmd.write 0x41 true, I2cCmd.start,
        I2cCmd.write 0xD1 true, I2cCmd.read 1 I2C_MASTER_ACK,
        I2cCmd.read 0 I2C_MASTER_NACK, I2cCmd.stop]] ∧
    (I2cCmd.stop ∉ link_who_am_i.dropLast ∧ I2cCmd.stop ∉ link_accel_x.dropLast ∧
      I2cCmd.stop ∉ link_tem.dropLast) ∧
    ((MPU_ADDR <<< 1) ||| I2C_MASTER_WRITE = 0xD0 ∧
      (MPU_ADDR <<< 1) ||| I2C_MASTER_READ = 0xD1) ∧
    link_tem =
      link_accel_x.map
        (fun c => if c = I2cCmd.write 0x3B true then I2cCmd.write 0x41 true else c) := by
  refine ⟨?_, ?_, ?_, by decide, by decide, by decide⟩
  · by_cases h : deliver link_who_am_i (T s link_who_am_i).rx mem0 0 % 256 = 0x68
    · rw [init_trace_match T s mem0 h, ← link_who_am_i_eq]; rfl
    · rw [init_trace_mismatch T s mem0 h, ← link_who_am_i_eq]; rfl
  · rw [← link_accel_x_eq]; rfl
  · rw [← link_tem_eq]; rfl

/-! ## Transport status (C9) -/

/-- Counterexample to claim C9 as stated: an identity exchange that times out, or
whose required acknowledge is missing, leaves `MPU6050_init` with the same trace as a
successful exchange with a device answering `0x00` (the not-online log), and
`get_accel_x` with the same return value as a successful read of `(0x00, 0x00)`. -/
theorem C9_status_surfaces_counterexample :
    ((bus_timeout () link_who_am_i).status = ESP_ERR_TIMEOUT ∧
      (bus_nack () link_who_am_i).status = ESP_FAIL ∧
      (bus_answer [0x00] () link_who_am_i).status = ESP_OK ∧
      ESP_ERR_TIMEOUT ≠ ESP_OK ∧ ESP_FAIL ≠ ESP_OK) ∧
    (MPU6050_init bus_timeout () (fun _ => 0)).trace =
      (MPU6050_init (bus_answer [0x00]) () (fun _ => 0)).trace ∧
    (MPU6050_init bus_nack () (fun _ => 0)).trace =
      (MPU6050_init (bus_answer [0x00]) () (fun _ => 0)).trace ∧
    (MPU6050_init bus_timeout () (fun _ => 0)).trace =
      [Event.xfer I2C_MASTER_NUM link_who_am_i 1000, Event.log (LogLine.offline 0x00)] ∧
    (get_accel_x bus_timeout () (fun _ => 0)).ret =
      (get_accel_x (bus_answer [0x00, 0x00]) () (fun _ => 0)).ret ∧
    (get_accel_x bus_nack () (fun _ => 0)).ret =
      (get_accel_x (bus_answer [0x00, 0x00]) () (fun _ => 0)).ret := by
  decide

/-- Claim C9, amended: every driver operation drops the status the transport reports.
Whatever status (`ESP_OK`, timeout, missing acknowledge) is reported for each
transaction, the transactions, log lines, return value and bus state of
`MPU6050_init`, `get_accel_x` and `get_tem` are the same. -/
theorem C9_status_is_dropped {σ F : Type} (T : Transport σ) (g : σ → List I2cCmd → Int)
    (fp : Int → F) (s : σ) (mem0 : Nat → Nat) :
    MPU6050_init (relabel g T) s mem0 = MPU6050_init T s mem0 ∧
    get_accel_x (relabel g T) s mem0 = get_accel_x T s mem0 ∧
    get_tem_data (relabel g T) s mem0 = get_tem_data T s mem0 ∧
    get_tem fp (relabel g T) s mem0 = get_tem fp T s mem0 :=
  ⟨rfl, rfl, rfl, rfl⟩

/-! ## Temperature transform (C3) -/

/-- Rounding to the nearest integer moves a value by at most one half. -/
theorem rne_err (y : ℚ) : |(rne y : ℚ) - y| ≤ 1 / 2 := by
  have h1 := Int.floor_le y
  have h2 := Int.lt_floor_add_one y
  unfold rne
  simp only
  split_ifs with a b c <;> push_cast <;> rw [abs_le] <;> constructor <;> linarith

/-- An integer rounds to itself. -/
theorem rne_intCast (z : Int) : rne (z : ℚ) = z := by
  unfold rne
  simp

/-- The magnitude of a rational from its reduced numerator and denominator. -/
theorem abs_eq_natAbs_div (x : ℚ) : |x| = (x.num.natAbs : ℚ) / (x.den : ℚ) := by
  rw [Rat.abs_def, Rat.divInt_eq_div]
  push_cast
  rw [Nat.cast_natAbs]
  push_cast
  rfl


/-- The exponent `floor_log2 x` brackets a nonzero `x` between consecutive powers of two. -/
theorem floor_log2_spec (x : ℚ) (h0 : x ≠ 0) :
    (2 : ℚ) ^ floor_log2 x ≤ |x| ∧ |x| < (2 : ℚ) ^ (floor_log2 x + 1) := by
  have hd : 0 < x.den := x.den_pos
  have hn : x.num.natAbs ≠ 0 := by
    simpa [Int.natAbs_eq_zero] using h0
  have hdq : (0 : ℚ) < (x.den : ℚ) := by exact_mod_cast hd
  have habs := abs_eq_natAbs_div x
  have hn1 : ((2 : ℚ) ^ x.num.natAbs.log2) ≤ (x.num.natAbs : ℚ) := by
    exact_mod_cast Nat.log2_self_le hn
  have hn2 : (x.num.natAbs : ℚ) < (2 : ℚ) ^ (x.num.natAbs.log2 + 1) := by
    exact_mod_cast (Nat.lt_log2_self : x.num.natAbs < 2 ^ (x.num.natAbs.log2 + 1))
  have hd1 : ((2 : ℚ) ^ x.den.log2) ≤ (x.den : ℚ) := by
    exact_mod_cast Nat.log2_self_le hd.ne'
  have hd2 : (x.den : ℚ) < (2 : ℚ) ^ (x.den.log2 + 1) := by
    exact_mod_cast (Nat.lt_log2_self : x.den < 2 ^ (x.den.log2 + 1))
  have hpa : (0 : ℚ) < 2 ^ x.num.natAbs.log2 := by positivity
  have hpb : (0 : ℚ) < 2 ^ x.den.log2 := by positivity
  -- bounds of the quotient by powers of two
  have hup : |x| < (2 : ℚ) ^ ((x.num.natAbs.log2 : Int) - (x.den.log2 : Int) + 1) := by
    rw [habs, zpow_add₀ (by norm_num), zpow_sub₀ (by norm_num), zpow_natCast, zpow_natCast,
      zpow_one, div_lt_iff₀ hdq]
    have e1 : (2 : ℚ) ^ x.num.natAbs.log2 / 2 ^ x.den.log2 * 2 * (x.den : ℚ) =
        2 ^ (x.num.natAbs.log2 + 1) * ((x.den : ℚ) / 2 ^ x.den.log2) := by
      rw [pow_succ]; field_simp
    rw [e1]
    have : (1 : ℚ) ≤ (x.den : ℚ) / 2 ^ x.den.log2 := by
      rw [le_div_iff₀ hpb]; linarith
    nlinarith
  have hlow : (2 : ℚ) ^ ((x.num.natAbs.log2 : Int) - (x.den.log2 : Int) - 1) ≤ |x| := by
    rw [habs, zpow_sub₀ (by norm_num), zpow_sub₀ (by norm_num), zpow_natCast, zpow_natCast,
      zpow_one, le_div_iff₀ hdq]
    have e1 : (2 : ℚ) ^ x.num.natAbs.log2 / 2 ^ x.den.log2 / 2 * (x.den : ℚ) =
        2 ^ x.num.natAbs.log2 * ((x.den : ℚ) / 2 ^ (x.den.log2 + 1)) := by
      rw [pow_succ]; field_simp
    rw [e1]
    have h1 : (x.den : ℚ) / 2 ^ (x.den.log2 + 1) ≤ 1 := by
      rw [div_le_iff₀ (by positivity)]; linarith
    have h2 : (0 : ℚ) ≤ (x.den : ℚ) / 2 ^ (x.den.log2 + 1) := by positivity
    nlinarith
  unfold floor_log2
  simp only
  split_ifs with h
  · exact ⟨h, hup⟩
  · refine ⟨hlow, ?_⟩
    rw [sub_add_cancel]
    exact not_le.1 h

/-- The exponent is determined by the bracket. -/
theorem floor_log2_eq (x : ℚ) (l : Int) (hl : (2 : ℚ) ^ l ≤ |x|)
    (hu : |x| < (2 : ℚ) ^ (l + 1)) : floor_log2 x = l := by
  have h0 : x ≠ 0 := by
    intro h
    rw [h, abs_zero] at hl
    have : (0 : ℚ) < 2 ^ l := by positivity
    linarith
  obtain ⟨h1, h2⟩ := floor_log2_spec x h0
  have a : l < floor_log2 x + 1 :=
    (zpow_lt_zpow_iff_right₀ (by norm_num : (1 : ℚ) < 2)).1 (lt_of_le_of_lt hl h2)
  have b : floor_log2 x < l + 1 :=
    (zpow_lt_zpow_iff_right₀ (by norm_num : (1 : ℚ) < 2)).1 (lt_of_le_of_lt h1 hu)
  omega

/-- A value below `2^k` has exponent below `k`. -/
theorem floor_log2_lt (x : ℚ) (k : Int) (hx : |x| < (2 : ℚ) ^ k) (h0 : x ≠ 0) :
    floor_log2 x < k :=
  (zpow_lt_zpow_iff_right₀ (by norm_num : (1 : ℚ) < 2)).1
    (lt_of_le_of_lt (floor_log2_spec x h0).1 hx)

/-- A value closer than one half to an integer rounds to it. -/
theorem rne_eq_of_near (y : ℚ) (z : Int) (h : |y - z| < 1 / 2) : rne y = z := by
  rw [abs_lt] at h
  obtain ⟨h1, h2⟩ := h
  unfold rne
  simp only
  by_cases hyz : (z : ℚ) ≤ y
  · have hf : ⌊y⌋ = z := by
      rw [Int.floor_eq_iff]; constructor <;> linarith
    rw [hf, if_pos (by linarith)]
  · have hf : ⌊y⌋ = z - 1 := by
      rw [Int.floor_eq_iff]; push_cast; constructor <;> linarith
    rw [hf]
    push_cast
    rw [if_neg (by linarith), if_pos (by linarith)]
    ring

/-- Evaluation of `fp_round` at a value whose exponent and nearest significand are known. -/
theorem fp_round_eq (p : Nat) (emin : Int) (x : ℚ) (e z : Int)
    (hl : (2 : ℚ) ^ (e + p - 1) ≤ |x|) (hu : |x| < (2 : ℚ) ^ (e + p - 1 + 1))
    (hemin : emin ≤ e) (hz : |x / (2 : ℚ) ^ e - z| < 1 / 2) :
    fp_round p emin x = (z : ℚ) * (2 : ℚ) ^ e := by
  have h0 : x ≠ 0 := by
    intro h
    rw [h, abs_zero] at hl
    have : (0 : ℚ) < 2 ^ (e + p - 1) := by positivity
    linarith
  have hfl := floor_log2_eq x _ hl hu
  unfold fp_round
  rw [if_neg h0]
  simp only
  have he : max (floor_log2 x - ((p : Int) - 1)) emin = e := by
    rw [hfl]
    have : e + (p : Int) - 1 - ((p : Int) - 1) = e := by ring
    rw [this]
    exact max_eq_left hemin
  rw [he, rne_eq_of_near _ z hz]

/-- Rounding error: half a unit in the last place of the binade below `2^k`. -/
theorem fp_round_err (p : Nat) (emin : Int) (x : ℚ) (k : Int)
    (hx : |x| < (2 : ℚ) ^ k) (hk : emin ≤ k - p) :
    |fp_round p emin x - x| ≤ (2 : ℚ) ^ (k - p) / 2 := by
  unfold fp_round
  split_ifs with h0
  · rw [h0]; simp; positivity
  · simp only
    have hfl := floor_log2_lt x k hx h0
    have he : max (floor_log2 x - ((p : Int) - 1)) emin ≤ k - p := by
      apply max_le _ hk
      omega
    generalize max (floor_log2 x - ((p : Int) - 1)) emin = e at he
    have hpos : (0 : ℚ) < 2 ^ e := by positivity
    have hr := rne_err (x / 2 ^ e)
    have hmono : (2 : ℚ) ^ e ≤ 2 ^ (k - p) :=
      zpow_le_zpow_right₀ (by norm_num) he
    have heq : (rne (x / 2 ^ e) : ℚ) * 2 ^ e - x =
        ((rne (x / 2 ^ e) : ℚ) - x / 2 ^ e) * 2 ^ e := by
      field_simp
    rw [heq, abs_mul, abs_of_pos hpos]
    calc |(rne (x / 2 ^ e) : ℚ) - x / 2 ^ e| * 2 ^ e ≤ 1 / 2 * 2 ^ e := by
          exact mul_le_mul_of_nonneg_right hr hpos.le
      _ ≤ 1 / 2 * 2 ^ (k - p) := by
          exact mul_le_mul_of_nonneg_left hmono (by norm_num)
      _ = 2 ^ (k - p) / 2 := by ring

/-- Integers of fewer than `p` bits are representable: they round to themselves. -/
theorem fp_round_intCast (p : Nat) (emin : Int) (v : Int) (k : Nat)
    (hv : |(v : ℚ)| < (2 : ℚ) ^ k) (hk : k < p) (hemin : emin ≤ 0) :
    fp_round p emin (v : ℚ) = v := by
  unfold fp_round
  split_ifs with h0
  · exact h0.symm
  · simp only
    have hfl := floor_log2_lt (v : ℚ) k (by rw [zpow_natCast]; exact hv) h0
    have he : max (floor_log2 (v : ℚ) - ((p : Int) - 1)) emin ≤ 0 := by
      apply max_le _ hemin
      omega
    generalize max (floor_log2 (v : ℚ) - ((p : Int) - 1)) emin = e at he
    obtain ⟨m, rfl⟩ : ∃ m : Nat, e = -(m : Int) := ⟨(-e).toNat, by omega⟩
    have h1 : (v : ℚ) / 2 ^ (-(m : Int)) = ((v * 2 ^ m : Int) : ℚ) := by
      rw [zpow_neg, zpow_natCast]
      push_cast
      field_simp
    rw [h1, rne_intCast, zpow_neg, zpow_natCast]
    push_cast
    field_simp

/-! ### Values of the roundings used at `raw = 0` and `raw = -1` -/

/-- The conversion of `340` to `double` is exact. -/
theorem f64_340 : f64 340 = 340 := by
  have h := fp_round_intCast 53 (-1074) 340 9 (by norm_num [abs_of_pos]) (by norm_num)
    (by norm_num)
  simpa [f64] using h

/-- The conversion `(double)data.value` of an `int16_t` is exact. -/
theorem f64_intCast (v : Int) (hlow : -32768 ≤ v) (hhigh : v ≤ 32767) : f64 (v : ℚ) = v := by
  have hv : |(v : ℚ)| < (2 : ℚ) ^ 16 := by
    rw [abs_lt]
    constructor
    · have : ((-32768 : Int) : ℚ) ≤ v := by exact_mod_cast hlow
      norm_num at this ⊢; linarith
    · have : (v : ℚ) ≤ ((32767 : Int) : ℚ) := by exact_mod_cast hhigh
      norm_num at this ⊢; linarith
  exact fp_round_intCast 53 (-1074) v 16 hv (by norm_num) (by norm_num)

/-- The `double` literal `36.53`. -/
theorem f64_lit : f64 (3653 / 100) = 1285285112405033 / 35184372088832 := by
  have h := fp_round_eq 53 (-1074) (3653 / 100) (-47) 5141140449620132
    (by norm_num [abs_of_pos]) (by norm_num [abs_of_pos]) (by norm_num)
    (by norm_num [abs_lt])
  rw [f64, h]
  norm_num

/-- The `double` literal `36.53` is a binary64 number. -/
theorem f64_lit_idem :
    f64 (1285285112405033 / 35184372088832) = 1285285112405033 / 35184372088832 := by
  have h := fp_round_eq 53 (-1074) (1285285112405033 / 35184372088832) (-47)
    5141140449620132
    (by norm_num [abs_of_pos]) (by norm_num [abs_of_pos]) (by norm_num)
    (by norm_num [abs_lt])
  rw [f64, h]
  norm_num

/-- The `double` quotient `-1.0/340`. -/
theorem f64_neg_inv_340 : f64 (-1 / 340) = -6781891203569688 / 2305843009213693952 := by
  have h := fp_round_eq 53 (-1074) (-1 / 340) (-61) (-6781891203569688)
    (by norm_num [abs_of_neg]) (by norm_num [abs_of_neg]) (by norm_num)
    (by norm_num [abs_lt])
  rw [f64, h]
  norm_num

/-- The `double` sum `-1.0/340 + 36.53`. -/
theorem f64_sum_neg1 :
    f64 (-6781891203569688 / 2305843009213693952 + 1285285112405033 / 35184372088832) =
      1285181628957713 / 35184372088832 := by
  have e : (-6781891203569688 / 2305843009213693952 + 1285285112405033 / 35184372088832 : ℚ)
      = 10528207904421584125 / 288230376151711744 := by norm_num
  have h := fp_round_eq 53 (-1074) (10528207904421584125 / 288230376151711744) (-47)
    5140726515830852
    (by norm_num [abs_of_pos]) (by norm_num [abs_of_pos]) (by norm_num)
    (by norm_num [abs_lt])
  rw [e, f64, h]
  norm_num

/-- The value of main.c:182 at `data.value = 0`. -/
theorem tem_double_zero : tem_double 0 = 1285285112405033 / 35184372088832 := by
  unfold tem_double
  rw [f64_340, f64_lit]
  have h0 : f64 ((0 : Int) : ℚ) = 0 := by simp [f64, fp_round]
  rw [h0]
  have h1 : f64 (0 / 340) = 0 := by simp [f64, fp_round]
  rw [h1, zero_add, f64_lit_idem]

/-- The value of main.c:182 at `data.value = -1`. -/
theorem tem_double_neg_one : tem_double (-1) = 1285181628957713 / 35184372088832 := by
  unfold tem_double
  rw [f64_340, f64_lit, f64_intCast (-1) (by norm_num) (by norm_num)]
  have e : (((-1 : Int) : ℚ) / 340) = -1 / 340 := by norm_num
  rw [e, f64_neg_inv_340, f64_sum_neg1]

/-- With the exact conversions removed, main.c:182 is two roundings of the quotient
and the sum, and one of the literal. -/
theorem tem_double_eq (v : Int) (hlow : -32768 ≤ v) (hhigh : v ≤ 32767) :
    tem_double v = f64 (f64 ((v : ℚ) / 340) + f64 (3653 / 100)) := by
  unfold tem_double
  rw [f64_340, f64_intCast v hlow hhigh]

/-- The value of main.c:182 is within `2^-45` of the exact `v/340 + 36.53` and below
`2^8` in magnitude, for every `int16_t` value `v`. -/
theorem tem_double_err (v : Int) (hlow : -32768 ≤ v) (hhigh : v ≤ 32767) :
    |tem_double v - ((v : ℚ) / 340 + 3653 / 100)| ≤ 1 / 2 ^ 45 ∧
    |tem_double v| < 2 ^ 8 := by
  rw [tem_double_eq v hlow hhigh, f64_lit]
  have hl : ((-32768 : Int) : ℚ) ≤ v := by exact_mod_cast hlow
  have hh : (v : ℚ) ≤ ((32767 : Int) : ℚ) := by exact_mod_cast hhigh
  push_cast at hl hh
  have hq : |(v : ℚ) / 340| < (2 : ℚ) ^ (7 : Int) := by
    rw [abs_lt]
    constructor
    · rw [lt_div_iff₀ (by norm_num)]; norm_num; linarith
    · rw [div_lt_iff₀ (by norm_num)]; norm_num; linarith
  have h1 := fp_round_err 53 (-1074) ((v : ℚ) / 340) 7 hq (by norm_num)
  rw [abs_lt] at hq
  change |f64 ((v : ℚ) / 340) - (v : ℚ) / 340| ≤ _ at h1
  have e1 : (2 : ℚ) ^ ((7 : Int) - ((53 : Nat) : Int)) / 2 = 1 / 2 ^ 47 := by norm_num
  rw [e1, abs_le] at h1
  have hs : |f64 ((v : ℚ) / 340) + 1285285112405033 / 35184372088832| <
      (2 : ℚ) ^ (8 : Int) := by
    rw [abs_lt]
    constructor
    · norm_num at h1 ⊢; linarith
    · norm_num at h1 ⊢; linarith
  have h3 := fp_round_err 53 (-1074) _ 8 hs (by norm_num)
  change |f64 (f64 ((v : ℚ) / 340) + 1285285112405033 / 35184372088832) -
    (f64 ((v : ℚ) / 340) + 1285285112405033 / 35184372088832)| ≤ _ at h3
  have e3 : (2 : ℚ) ^ ((8 : Int) - ((53 : Nat) : Int)) / 2 = 1 / 2 ^ 46 := by norm_num
  rw [e3, abs_le] at h3
  constructor
  · rw [abs_le]
    constructor
    · norm_num at h1 h3 ⊢; linarith
    · norm_num at h1 h3 ⊢; linarith
  · rw [abs_lt]
    constructor
    · norm_num at h1 h3 ⊢; linarith
    · norm_num at h1 h3 ⊢; linarith

/-- The `float` returned at main.c:183 is within `2^-16` of the exact `v/340 + 36.53`. -/
theorem tem_float_err (v : Int) (hlow : -32768 ≤ v) (hhigh : v ≤ 32767) :
    |tem_float v - ((v : ℚ) / 340 + 3653 / 100)| ≤ 1 / 2 ^ 16 := by
  obtain ⟨h1, h2⟩ := tem_double_err v hlow hhigh
  have h2' : |tem_double v| < (2 : ℚ) ^ (8 : Int) := by
    rw [zpow_ofNat]; exact h2
  have h3 := fp_round_err 24 (-149) (tem_double v) 8 h2' (by norm_num)
  change |tem_float v - tem_double v| ≤ _ at h3
  have e3 : (2 : ℚ) ^ ((8 : Int) - ((24 : Nat) : Int)) / 2 = 1 / 2 ^ 17 := by norm_num
  rw [e3, abs_le] at h3
  rw [abs_le] at h1 ⊢
  constructor
  · norm_num at h1 h3 ⊢; linarith
  · norm_num at h1 h3 ⊢; linarith

/-- The signed 16-bit value of two bytes lies in the `int16_t` range. -/
theorem int16_of_be_range (hi lo : Nat) (hhi : hi < 256) (hlo : lo < 256) :
    -32768 ≤ int16_of_be hi lo ∧ int16_of_be hi lo ≤ 32767 := by
  unfold int16_of_be
  split_ifs with h <;> constructor <;> omega

/-- Counterexample to claim C3 as stated: at the bytes `(0x00, 0x00)` the value
`get_tem` computes before the rounding to `float` is the binary64 number nearest
`36.53`, which exceeds `raw/340 + 36.53 = 36.53` by `1/879609302220800`; at
`(0xFF, 0xFF)` it exceeds `36.53 - 1/340` by `57/14953358137753600`. -/
theorem C3_exact_value_counterexample :
    ((bus_answer [0x00, 0x00] () link_tem).rx = [0x00, 0x00] ∧
      (get_tem_data (bus_answer [0x00, 0x00]) () (fun _ => 0)).ret = 0 ∧
      tem_double (get_tem_data (bus_answer [0x00, 0x00]) () (fun _ => 0)).ret ≠
        ((get_tem_data (bus_answer [0x00, 0x00]) () (fun _ => 0)).ret : ℚ) / 340 +
          3653 / 100 ∧
      tem_double (get_tem_data (bus_answer [0x00, 0x00]) () (fun _ => 0)).ret -
        3653 / 100 = 1 / 879609302220800) ∧
    ((bus_answer [0xFF, 0xFF] () link_tem).rx = [0xFF, 0xFF] ∧
      (get_tem_data (bus_answer [0xFF, 0xFF]) () (fun _ => 0)).ret = -1 ∧
      tem_double (get_tem_data (bus_answer [0xFF, 0xFF]) () (fun _ => 0)).ret ≠
        3653 / 100 - 1 / 340 ∧
      tem_double (get_tem_data (bus_answer [0xFF, 0xFF]) () (fun _ => 0)).ret -
        (3653 / 100 - 1 / 340) = 57 / 14953358137753600) := by
  have h0 : (get_tem_data (bus_answer [0x00, 0x00]) () (fun _ => 0)).ret = 0 := by decide
  have h1 : (get_tem_data (bus_answer [0xFF, 0xFF]) () (fun _ => 0)).ret = -1 := by decide
  rw [h0, h1, tem_double_zero, tem_double_neg_one]
  refine ⟨⟨rfl, rfl, ?_, ?_⟩, ⟨rfl, rfl, ?_, ?_⟩⟩ <;> norm_num

/-- Claim C3, amended: for every pair of bytes `(hi, lo)` read from the temperature
register pair, `get_tem` computes, before the final rounding to `float`, the binary64
evaluation of `raw/340 + 36.53` (quotient, literal and sum each rounded to nearest
even), where `raw` is the signed 16-bit value of `hi*256 + lo`; that value is within
`2^-45` of the exact `raw/340 + 36.53` and the `float` returned within `2^-16`; the
result depends on nothing but the two bytes; `(0x00,0x00)` gives
`36.53 + 1/879609302220800` and `(0xFF,0xFF)` gives
`36.53 - 1/340 + 57/14953358137753600`. -/
theorem C3_tem_binary64 {σ : Type} (T : Transport σ) (s : σ) (mem0 : Nat → Nat)
    (hi lo : Nat) (hhi : hi < 256) (hlo : lo < 256)
    (hrx : (T s link_tem).rx = [hi, lo]) :
    (get_tem_data T s mem0).ret = int16_of_be hi lo ∧
    (get_tem tem_float T s mem0).ret = f32 (tem_double (int16_of_be hi lo)) ∧
    tem_double (int16_of_be hi lo) =
      f64 (f64 ((int16_of_be hi lo : ℚ) / 340) + f64 (3653 / 100)) ∧
    |tem_double (int16_of_be hi lo) - ((int16_of_be hi lo : ℚ) / 340 + 3653 / 100)| ≤
      1 / 2 ^ 45 ∧
    |(get_tem tem_float T s mem0).ret - ((int16_of_be hi lo : ℚ) / 340 + 3653 / 100)| ≤
      1 / 2 ^ 16 ∧
    (hi = 0x00 → lo = 0x00 →
      tem_double (int16_of_be hi lo) = 3653 / 100 + 1 / 879609302220800) ∧
    (hi = 0xFF → lo = 0xFF →
      tem_double (int16_of_be hi lo) =
        3653 / 100 - 1 / 340 + 57 / 14953358137753600) := by
  obtain ⟨hlow, hhigh⟩ := int16_of_be_range hi lo hhi hlo
  have hret : (get_tem tem_float T s mem0).ret = tem_float (int16_of_be hi lo) :=
    get_tem_of_bytes tem_float T s mem0 hi lo hhi hlo hrx
  have hdata : (get_tem_data T s mem0).ret = int16_of_be hi lo :=
    get_tem_of_bytes id T s mem0 hi lo hhi hlo hrx
  refine ⟨hdata, hret, tem_double_eq _ hlow hhigh, (tem_double_err _ hlow hhigh).1, ?_,
    ?_, ?_⟩
  · rw [hret]
    exact tem_float_err _ hlow hhigh
  · intro e1 e2
    have e : int16_of_be hi lo = 0 := by rw [e1, e2]; decide
    rw [e, tem_double_zero]
    norm_num
  · intro e1 e2
    have e : int16_of_be hi lo = -1 := by rw [e1, e2]; decide
    rw [e, tem_double_neg_one]
    norm_num

/-- Witness of the amended C3 at the bytes `(0xFF, 0xFF)`, which encode `-1`. -/
theorem C3_tem_binary64_witness :
    (0xFF < 256 ∧ 0xFF < 256 ∧ (bus_answer [0xFF, 0xFF] () link_tem).rx = [0xFF, 0xFF]) ∧
    tem_double (int16_of_be 0xFF 0xFF) =
      3653 / 100 - 1 / 340 + 57 / 14953358137753600 :=
  ⟨⟨by decide, by decide, rfl⟩,
   (C3_tem_binary64 (bus_answer [0xFF, 0xFF]) () (fun _ => 0) 0xFF 0xFF
      (by decide) (by decide) rfl).2.2.2.2.2.2 rfl rfl⟩

end MPU6050
